import Mathlib

/-!
Shallow embedding of `src/SwaggerConvert.py` (functions `fetch_api_details` and
`convert_swagger_12_to_20`).

The Python program traverses dynamically-typed JSON dictionaries.  We embed
JSON values as the inductive type `Json` below; Python dictionaries are
association lists of string keys (Python 3.7+ dicts preserve insertion order,
which the association list models).  Python operations are embedded as
follows:

* `d[k]` (subscript read) → `Json.getItem`, failing (`Except.error`, modelling
  an uncaught `KeyError`/`TypeError`) when the key is absent or the value is
  not a dict;
* `d.get(k, default)` → `Json.getD`;
* `d[k] = v` (subscript write) → `setKey` (replace in place, else append —
  Python dict insertion-order semantics);
* `del d[k]` → `delKey` (a dict holds each key once, so removing every pair
  with that key from the association list models `del`);
* Python truthiness (`if x:`, `x or y`) → `Json.truthy`;
* `str(x)` and f-string interpolation → `pyStr` (exact for scalars; container
  rendering is simplified, the program only ever stringifies scalars).

Network effects are abstracted as in the program's own structure: the result
of fetching the resource listing and a resolver for declaration URLs are
passed in as a `FetchEnv`, with `none` standing for a failed request
(`requests.RequestException`).  An uncaught Python exception inside
`convert_swagger_12_to_20` is modelled as `Except.error`; a normal return is
`Except.ok` (the error-path `return {}` statements become `ok (Json.obj [])`,
matching the Python function returning an empty — falsy — dict, which the
caller treats as "no output document").
-/

namespace SwaggerConvert

/-- JSON values, the dynamic data the Python code manipulates.  `obj` is an
insertion-ordered association list, modelling a Python dict. -/
inductive Json where
  | null : Json
  | bool : Bool → Json
  | str : String → Json
  | num : Int → Json
  | arr : List Json → Json
  | obj : List (String × Json) → Json
deriving Repr, Inhabited

/-- First value stored under a key in an association list (a Python dict holds
each key at most once, so this is the value of the key). -/
def lookupKey : List (String × Json) → String → Option Json
  | [], _ => none
  | (k, v) :: rest, key => if k = key then some v else lookupKey rest key

/-- Python dict subscript assignment `d[k] = v`: replace the value in place if
the key exists, otherwise append the new pair. -/
def setKey : List (String × Json) → String → Json → List (String × Json)
  | [], key, v => [(key, v)]
  | (k, w) :: rest, key, v =>
    if k = key then (key, v) :: rest else (k, w) :: setKey rest key v

/-- Python `del d[k]`: remove the key (all pairs with it) from the dict. -/
def delKey (fields : List (String × Json)) (key : String) : List (String × Json) :=
  fields.filter (fun kv => kv.1 ≠ key)

/-- Python truthiness of a JSON value: `None`, `False`, `0`, `""`, `[]` and
`{}` are falsy, everything else truthy. -/
def Json.truthy : Json → Bool
  | .null => false
  | .bool b => b
  | .str s => !s.isEmpty
  | .num n => n ≠ 0
  | .arr xs => !xs.isEmpty
  | .obj fs => !fs.isEmpty

mutual

/-- Python `str(x)` as used by the program (`str(resp["code"])` and f-string
interpolation).  Exact for scalars — `None`/`True`/`False`, strings rendered
verbatim, numbers in decimal; containers get a simplified bracketed rendering
(the program only ever stringifies scalar values). -/
def pyStr : Json → String
  | .null => "None"
  | .bool true => "True"
  | .bool false => "False"
  | .str s => s
  | .num n => toString n
  | .arr xs => "[" ++ pyStrList xs ++ "]"
  | .obj fs => "\x7b" ++ pyStrFields fs ++ "\x7d"

/-- Comma-joined rendering of array elements, for `pyStr`. -/
def pyStrList : List Json → String
  | [] => ""
  | [x] => pyStr x
  | x :: rest => pyStr x ++ ", " ++ pyStrList rest

/-- Comma-joined rendering of object fields, for `pyStr`. -/
def pyStrFields : List (String × Json) → String
  | [] => ""
  | [(k, v)] => k ++ ": " ++ pyStr v
  | (k, v) :: rest => k ++ ": " ++ pyStr v ++ ", " ++ pyStrFields rest

end

/-- Python subscript read `d[k]`: fails (uncaught `TypeError`) when the value
is not a dict, fails (uncaught `KeyError`) when the key is absent. -/
def Json.getItem : Json → String → Except String Json
  | .obj fields, key =>
    match lookupKey fields key with
    | some v => .ok v
    | none => .error ("KeyError: " ++ key)
  | _, key => .error ("TypeError: value is not subscriptable at key " ++ key)

/-- Python `d.get(k, default)`: fails when the value is not a dict
(`AttributeError`), otherwise the stored value or the default. -/
def Json.getD : Json → String → Json → Except String Json
  | .obj fields, key, dflt => .ok ((lookupKey fields key).getD dflt)
  | _, key, _ => .error ("AttributeError: no method get, at key " ++ key)

/-- Python `k in d` for a dict, as used at line 89 of the source
(`if "format" in param`). -/
def Json.hasKey : Json → String → Bool
  | .obj fields, key => (lookupKey fields key).isSome
  | _, _ => false

/-- Requires a JSON value to be a string, modelling a Python spot where a
string method (`.lower()`, `.split(..)`) is invoked on it. -/
def Json.asStr : Json → Except String String
  | .str s => .ok s
  | _ => .error "TypeError: expected a string"

/-- Requires a JSON value to be an array, modelling Python iteration
`for x in v` over a JSON list. -/
def Json.asArr : Json → Except String (List Json)
  | .arr xs => .ok xs
  | _ => .error "TypeError: expected a list"

/-- Requires a JSON value to be a dict, modelling Python `.items()` /
`.values()` access. -/
def Json.asObj : Json → Except String (List (String × Json))
  | .obj fs => .ok fs
  | _ => .error "TypeError: expected a dict"

/-! Python string methods, re-implemented over `List Char` with structural
(fuel-bounded) recursion so that they are fully kernel-computable.  Lean's
own `String.splitOn`, `String.replace`, `String.endsWith` and friends do not
reduce definitionally, so they cannot be used in an embedding whose theorems
are settled on concrete inputs. -/

/-- Python `s.endswith(t)`. -/
def pyEndsWith (s t : String) : Bool :=
  List.isPrefixOf t.data.reverse s.data.reverse

/-- Python `s.rstrip('/')` (line 29). -/
def rstripSlashes (s : String) : String :=
  String.mk ((s.data.reverse.dropWhile (fun c => c = '/')).reverse)

/-- Python `s.lower()`, restricted to ASCII case mapping. -/
def pyLower (s : String) : String := String.mk (s.data.map Char.toLower)

/-- Worker for `pySplit`: walk the characters, cutting a new segment at every
non-overlapping occurrence of the separator.  The fuel (initially the string
length, an upper bound on the number of steps) makes the recursion
structural. -/
def pySplitGo (sep : List Char) : Nat → List Char → List Char → List (List Char)
  | _, acc, [] => [acc.reverse]
  | 0, acc, rest => [acc.reverse ++ rest]
  | fuel + 1, acc, c :: rs =>
    if List.isPrefixOf sep (c :: rs) then
      acc.reverse :: pySplitGo sep fuel [] (List.drop sep.length (c :: rs))
    else
      pySplitGo sep fuel (c :: acc) rs

/-- Python `s.split(sep)` for a nonempty separator. -/
def pySplit (s sep : String) : List String :=
  (pySplitGo sep.data s.data.length [] s.data).map String.mk

/-- Worker for `pyReplace`, replacing non-overlapping occurrences left to
right; fuel as in `pySplitGo`. -/
def pyReplaceGo (old new : List Char) : Nat → List Char → List Char
  | 0, rest => rest
  | fuel + 1, rest =>
    match rest with
    | [] => []
    | c :: rs =>
      if List.isPrefixOf old (c :: rs) then
        new ++ pyReplaceGo old new fuel (List.drop old.length (c :: rs))
      else
        c :: pyReplaceGo old new fuel rs

/-- Python `s.replace(old, new)` for a nonempty pattern: every occurrence is
replaced, not only a trailing one. -/
def pyReplace (s old new : String) : String :=
  String.mk (pyReplaceGo old.data new.data s.data.length s.data)

/-- Split at the first occurrence of the separator, when one exists;
worker with fuel. -/
def splitFirstGo (sep : List Char) : Nat → List Char → List Char → Option (List Char × List Char)
  | _, _, [] => none
  | 0, _, _ => none
  | fuel + 1, acc, c :: rs =>
    if List.isPrefixOf sep (c :: rs) then some (acc.reverse, List.drop sep.length (c :: rs))
    else splitFirstGo sep fuel (c :: acc) rs

/-- Split a string at the first occurrence of a nonempty separator. -/
def splitFirst (s sep : String) : Option (String × String) :=
  (splitFirstGo sep.data s.data.length [] s.data).map
    (fun p => (String.mk p.1, String.mk p.2))

/-- Result of `urllib.parse.urlparse` as the program uses it (`scheme`,
`netloc`, `path`).  Model restricted to `scheme://netloc/path` URLs without
query, fragment or params — the shapes the program's own precondition (URL
ending in "api-docs") concerns. -/
structure ParsedUrl where
  scheme : String
  netloc : String
  path : String
deriving Repr

/-- `urllib.parse.urlparse`, restricted as described on `ParsedUrl`: the
scheme is the part before the first "://", the netloc runs from there to the
next "/", the path is the rest (with its leading "/").  A URL without "://"
parses with empty scheme and netloc and everything in the path, as in
Python. -/
def urlparse (u : String) : ParsedUrl :=
  match splitFirst u "://" with
  | none => ⟨"", "", u⟩
  | some (scheme, rest) =>
    match splitFirst rest "/" with
    | none => ⟨scheme, rest, ""⟩
    | some (netloc, pathRest) => ⟨scheme, netloc, "/" ++ pathRest⟩

/-- Line 61: the tag name of an API reference path — the final "/"-segment
with every occurrence of "-controller" removed (`str.replace` replaces all
occurrences, not only a trailing one). -/
def tagNameOf (p : String) : String :=
  pyReplace ((pySplit p "/").getLastD "") "-controller" ""

/-- Network abstraction: `listing` is the parsed JSON of GET api_docs_url
(`none` = request failure, lines 33-40); `resolver` maps a declaration's full
URL to its parsed JSON (`none` = request failure inside `fetch_api_details`,
lines 12-18). -/
structure FetchEnv where
  listing : Option Json
  resolver : String → Option Json

/-- `fetch_api_details` (lines 6-18): GET `base_url ++ path`, returning the
parsed JSON on success and the empty dict on request failure. -/
def fetch_api_details (resolver : String → Option Json) (base_url path : String) : Json :=
  match resolver (base_url ++ path) with
  | some j => j
  | none => Json.obj []

/-- Translation of one parameter (lines 82-91): `name` and `paramType` and
`required` read strictly, `description` defaulting to "", `type` defaulting
to "string" and lower-cased, `format` appended only when the key is present. -/
def convertParam (param : Json) : Except String Json := do
  let name ← param.getItem "name"
  let ptype ← param.getItem "paramType"
  let desc ← param.getD "description" (Json.str "")
  let req ← param.getItem "required"
  let tyJ ← param.getD "type" (Json.str "string")
  let tyS ← tyJ.asStr
  let base := [("name", name), ("in", ptype), ("description", desc),
               ("required", req), ("type", Json.str (pyLower tyS))]
  if param.hasKey "format" then do
    let fmt ← param.getItem "format"
    return Json.obj (base ++ [("format", fmt)])
  else
    return Json.obj base

/-- Translation of one response message (lines 96-100): the stringified code
together with the response object, whose `description` is the message or
"No description" when the message is falsy, and whose `schema` is a `$ref`
object when `responseModel` is truthy and `None` otherwise. -/
def convertResponseMessage (resp : Json) : Except String (String × Json) := do
  let codeJ ← resp.getItem "code"
  let msg ← resp.getItem "message"
  let model ← resp.getItem "responseModel"
  return (pyStr codeJ,
    Json.obj [("description", if msg.truthy then msg else Json.str "No description"),
              ("schema", if model.truthy then
                  Json.obj [("$ref", Json.str ("#/definitions/" ++ pyStr model))]
                else Json.null)])

/-- Lines 94-100: accumulate the `responses` dict over the response messages
in order (`responses[code] = ...`). -/
def convertResponses (resps : List Json) : Except String (List (String × Json)) :=
  resps.foldlM (fun acc r => do
    let (code, v) ← convertResponseMessage r
    return setKey acc code v) []

/-- Translation of one operation (lines 77-111): the lower-cased method and
the operation object (before the final empty-field cleanup). -/
def convertOperation (tag_name : String) (operation : Json) : Except String (String × Json) := do
  let methodJ ← operation.getItem "method"
  let methodS ← methodJ.asStr
  let paramsJ ← operation.getD "parameters" (Json.arr [])
  let params ← paramsJ.asArr
  let parameters ← params.mapM convertParam
  let respsJ ← operation.getD "responseMessages" (Json.arr [])
  let resps ← respsJ.asArr
  let responses ← convertResponses resps
  let summary ← operation.getItem "summary"
  let notes ← operation.getItem "notes"
  let consumes ← operation.getItem "consumes"
  let produces ← operation.getItem "produces"
  return (pyLower methodS,
    Json.obj [("tags", Json.arr [Json.str tag_name]),
              ("summary", summary), ("description", notes),
              ("parameters", Json.arr parameters),
              ("responses", Json.obj responses),
              ("consumes", consumes), ("produces", produces)])

/-- Lines 113-116: insert an operation object at `paths[path][method]`,
creating the inner dict when the path is new.  The later write at an existing
(path, method) replaces the stored object. -/
def addOperation (paths : List (String × Json)) (path method : String) (op : Json) :
    Except String (List (String × Json)) :=
  match lookupKey paths path with
  | none => .ok (setKey paths path (Json.obj [(method, op)]))
  | some (Json.obj ms) => .ok (setKey paths path (Json.obj (setKey ms method op)))
  | some _ => .error "TypeError: paths entry is not a dict"

/-- Lines 74-116 inner loop: translate every operation of one endpoint and
insert each into the accumulated paths.  The endpoint's `path` is required to
be a string (it is used as a dict key; keys are modelled as strings). -/
def processEndpoint (tag_name : String) (paths : List (String × Json)) (endpoint : Json) :
    Except String (List (String × Json)) := do
  let pathJ ← endpoint.getItem "path"
  let path ← pathJ.asStr
  let opsJ ← endpoint.getItem "operations"
  let ops ← opsJ.asArr
  ops.foldlM (fun acc op => do
    let (method, opObj) ← convertOperation tag_name op
    addOperation acc path method opObj) paths

/-- Accumulator of the main loop over API references: the tags list
(line 63), the seen-tag set (line 58, kept in first-seen order) and the paths
mapping. -/
structure ConvState where
  tags : List Json
  seen : List String
  paths : List (String × Json)
deriving Repr

/-- Lines 61-67: compute the tag name of an API reference and append a tag
entry when the name is unseen (the reference's `description` is only read in
that case).  Returns the updated state with the tag name and the reference's
path string. -/
def tagStep (st : ConvState) (api_entry : Json) : Except String (ConvState × String × String) := do
  let pathJ ← api_entry.getItem "path"
  let pathS ← pathJ.asStr
  let tag_name := tagNameOf pathS
  if st.seen.contains tag_name then
    return (st, tag_name, pathS)
  else do
    let desc ← api_entry.getItem "description"
    return ({ st with
              tags := st.tags ++ [Json.obj [("name", Json.str tag_name), ("description", desc)]],
              seen := st.seen ++ [tag_name] }, tag_name, pathS)

/-- Lines 59-116, one iteration: the tag step, then the declaration fetch and
the loop over its endpoints (`api_details.get("apis", [])`). -/
def processApiEntry (resolver : String → Option Json) (base_url : String)
    (st : ConvState) (api_entry : Json) : Except String ConvState := do
  let (st1, tag_name, pathS) ← tagStep st api_entry
  let api_details := fetch_api_details resolver base_url pathS
  let endpointsJ ← api_details.getD "apis" (Json.arr [])
  let endpoints ← endpointsJ.asArr
  let paths2 ← endpoints.foldlM (processEndpoint tag_name) st1.paths
  return { st1 with paths := paths2 }

/-- Translation of one model property (lines 122-131): the property spec
(lower-cased `type`, `description` defaulting to "", `format` appended when
truthy) together with whether the property is required via
`prop_def.get("required", False)` truthiness. -/
def convertProperty (prop_def : Json) : Except String (Json × Bool) := do
  let tyJ ← prop_def.getItem "type"
  let tyS ← tyJ.asStr
  let desc ← prop_def.getD "description" (Json.str "")
  let base := [("type", Json.str (pyLower tyS)), ("description", desc)]
  let fmt ← prop_def.getD "format" Json.null
  let fields := if fmt.truthy then base ++ [("format", fmt)] else base
  let req ← prop_def.getD "required" (Json.bool false)
  return (Json.obj fields, req.truthy)

/-- One iteration of the properties loop (lines 122-131): store the property
spec under its name and append the name to the required list when flagged. -/
def modelPropStep (acc : List (String × Json) × List String) (pv : String × Json) :
    Except String (List (String × Json) × List String) := do
  let (spec, isReq) ← convertProperty pv.2
  return (setKey acc.1 pv.1 spec, if isReq then acc.2 ++ [pv.1] else acc.2)

/-- Translation of one model definition (lines 120-138): fold over the
properties in order collecting specs and required names; the output carries
`required` as the name list when nonempty and as `None` otherwise. -/
def convertModel (model_def : Json) : Except String Json := do
  let propsJ ← model_def.getItem "properties"
  let props ← propsJ.asObj
  let (properties, required) ← props.foldlM modelPropStep ([], [])
  let mdesc ← model_def.getD "description" (Json.str "")
  return Json.obj [("type", Json.str "object"),
                   ("properties", Json.obj properties),
                   ("required", if required.isEmpty then Json.null
                     else Json.arr (required.map Json.str)),
                   ("description", mdesc)]

/-- Line 119 loop: `input_data.get("models", {})`, building the definitions
dict in iteration order. -/
def convertModels (input_data : Json) : Except String (List (String × Json)) := do
  let modelsJ ← input_data.getD "models" (Json.obj [])
  let models ← modelsJ.asObj
  models.foldlM (fun acc mv => do
    let d ← convertModel mv.2
    return setKey acc mv.1 d) []

/-- Lines 142-146: delete the `responses` key of one operation object when
its value is falsy, then likewise the `parameters` key. -/
def cleanupOp (op : Json) : Except String Json := do
  let resps ← op.getItem "responses"
  let fs1 ← op.asObj
  let fs2 := if resps.truthy then fs1 else delKey fs1 "responses"
  let params ← (Json.obj fs2).getItem "parameters"
  let fs3 := if params.truthy then fs2 else delKey fs2 "parameters"
  return Json.obj fs3

/-- Line 142 inner loop: apply `cleanupOp` to every operation object of one
path, keys and order unchanged (Python mutates each value in place). -/
def cleanupMethods : List (String × Json) → Except String (List (String × Json))
  | [] => .ok []
  | mv :: rest => do
    let op2 ← cleanupOp mv.2
    let rest2 ← cleanupMethods rest
    return (mv.1, op2) :: rest2

/-- Lines 141-146: the post-pass cleanup sweep over every operation object of
every path. -/
def cleanupPaths : List (String × Json) → Except String (List (String × Json))
  | [] => .ok []
  | pv :: rest => do
    let ms ← pv.2.asObj
    let ms2 ← cleanupMethods ms
    let rest2 ← cleanupPaths rest
    return (pv.1, Json.obj ms2) :: rest2

/-- `convert_swagger_12_to_20` (lines 20-148).  `Except.ok` is a normal
Python return (the precondition-violation and root-fetch-failure paths return
the empty dict, which the caller treats as "no output"); `Except.error`
models an uncaught Python exception, which also yields no output document. -/
def convert_swagger_12_to_20 (env : FetchEnv) (api_docs_url : String) : Except String Json := do
  if !pyEndsWith api_docs_url "api-docs" then
    return Json.obj []
  let parsed := urlparse api_docs_url
  let host := parsed.netloc
  let base_path := rstripSlashes parsed.path
  let base_url := parsed.scheme ++ "://" ++ parsed.netloc ++ base_path ++ "/"
  match env.listing with
  | none => return Json.obj []
  | some input_data => do
    let info0 ← input_data.getItem "info"
    let apiVersion ← input_data.getD "apiVersion" (Json.str "1.0")
    let infoFs ← info0.asObj
    let info := Json.obj (setKey infoFs "version" apiVersion)
    let apisJ ← input_data.getItem "apis"
    let apis ← apisJ.asArr
    let st ← apis.foldlM (processApiEntry env.resolver base_url) ⟨[], [], []⟩
    let definitions ← convertModels input_data
    let cleanPaths ← cleanupPaths st.paths
    return Json.obj [("swagger", Json.str "2.0"), ("info", info),
      ("host", Json.str host), ("basePath", Json.str base_path),
      ("schemes", Json.arr [Json.str parsed.scheme]),
      ("paths", Json.obj cleanPaths),
      ("definitions", Json.obj definitions),
      ("tags", Json.arr st.tags)]

/-! Concrete inputs used by the per-claim witnesses and counterexamples. -/

/-- A minimal resource listing: an empty info dict and no API references. -/
def listingEmpty : Json := .obj [("info", .obj []), ("apis", .arr [])]

/-- Environment whose root fetch yields `listingEmpty` and whose every
declaration fetch fails. -/
def envEmpty : FetchEnv := ⟨some listingEmpty, fun _ => none⟩

/-- A pet-controller API reference as it appears in a resource listing. -/
def refPet : Json := .obj [("path", .str "/pet-controller"), ("description", .str "Pets")]

/-- A resource listing with the single reference `refPet` and no models. -/
def listingPet : Json := .obj [("info", .obj []), ("apis", .arr [refPet])]

/-- A minimal GET operation as the program reads one. -/
def opGET : Json := .obj [("method", .str "GET"), ("summary", .str "s"),
  ("notes", .str "n"), ("consumes", .arr []), ("produces", .arr [])]

/-- The translated form of `opGET` under tag "pet", before cleanup. -/
def opGETout : Json := .obj [("tags", .arr [.str "pet"]), ("summary", .str "s"),
  ("description", .str "n"), ("parameters", .arr []), ("responses", .obj []),
  ("consumes", .arr []), ("produces", .arr [])]

/-- A GET operation with one 200 response whose responseModel is the empty
string (falsy). -/
def opRespEmptyModel : Json := .obj [("method", .str "GET"), ("summary", .str "s"),
  ("notes", .str "n"), ("consumes", .arr []), ("produces", .arr []),
  ("responseMessages", .arr [.obj [("code", .num 200), ("message", .str "ok"),
    ("responseModel", .str "")]])]

/-- A declaration with one endpoint `/pet` carrying `opRespEmptyModel`. -/
def declEmptyModel : Json := .obj [("apis", .arr [.obj [("path", .str "/pet"),
  ("operations", .arr [opRespEmptyModel])]])]

/-- Environment for the C2 counterexample: listing `listingPet`, every
declaration fetch resolving to `declEmptyModel`. -/
def envC2 : FetchEnv := ⟨some listingPet, fun _ => some declEmptyModel⟩

/-- A GET operation whose single response message lacks the `message` key. -/
def opNoMessage : Json := .obj [("method", .str "GET"), ("summary", .str "s"),
  ("notes", .str "n"), ("consumes", .arr []), ("produces", .arr []),
  ("responseMessages", .arr [.obj [("code", .num 200), ("responseModel", .str "")]])]

/-- Environment for the C6 counterexample: the declaration's only response
message has no `message` key at all. -/
def envC6 : FetchEnv := ⟨some listingPet, fun _ => some (.obj [("apis",
  .arr [.obj [("path", .str "/pet"), ("operations", .arr [opNoMessage])]])])⟩

/-- Specification-side helper for C3: the names of the properties whose
`required` flag — read as the source reads it, `prop_def.get("required",
False)` — is truthy, in property order.  The error fallback is unreachable
whenever the model converted successfully (every property of a converted
model is a dict). -/
def requiredNames : List (String × Json) → List String
  | [] => []
  | pv :: rest =>
    match pv.2.getD "required" (Json.bool false) with
    | .ok r => if r.truthy then pv.1 :: requiredNames rest else requiredNames rest
    | .error _ => requiredNames rest

/-- A one-property model none of whose properties is required. -/
def modelM : Json := .obj [("properties", .obj [("a", .obj [("type", .str "string")])])]

/-- The converted form of `modelM`. -/
def defMout : Json := .obj [("type", .str "object"),
  ("properties", .obj [("a", .obj [("type", .str "string"), ("description", .str "")])]),
  ("required", Json.null), ("description", .str "")]

/-- A resource listing with no references and the single model `modelM`. -/
def listingC3 : Json := .obj [("info", .obj []), ("apis", .arr []),
  ("models", .obj [("M", modelM)])]

/-- Environment for the C3 counterexample. -/
def envC3 : FetchEnv := ⟨some listingC3, fun _ => none⟩

/-- The output document for `envEmpty` and origin URL
"http://host/v1/api-docs". -/
def outEmpty : Json := .obj [("swagger", .str "2.0"),
  ("info", .obj [("version", .str "1.0")]), ("host", .str "host"),
  ("basePath", .str "/v1/api-docs"), ("schemes", .arr [.str "http"]),
  ("paths", .obj []), ("definitions", .obj []), ("tags", .arr [])]

/-- Environment for the C9 witness: the listing has an info field but no
apis field. -/
def envC9 : FetchEnv := ⟨some (.obj [("info", .obj [])]), fun _ => none⟩

/-- Specification-side predicate for C7: an operation object's fields carry
no empty collection under the responses or parameters key — each of the two
keys is either absent or holds a truthy (nonempty) value. -/
def cleanOpFields (fs : List (String × Json)) : Prop :=
  (lookupKey fs "responses" = none ∨
    ∃ v, lookupKey fs "responses" = some v ∧ v.truthy = true) ∧
  (lookupKey fs "parameters" = none ∨
    ∃ v, lookupKey fs "parameters" = some v ∧ v.truthy = true)

/-- Specification-side tag derivation for C4 (amended): walk the API
references in order; for each, derive the tag name as the final path segment
with every occurrence of "-controller" removed; when the name is unseen,
append one tag entry carrying this (first) reference's description.  The
resulting list has exactly one entry per distinct derived name, in first-seen
order, each with the description of the first reference producing the name. -/
def specTags (seen : List String) (acc : List Json) : List Json → Except String (List Json)
  | [] => .ok acc
  | a :: rest => do
    let pj ← a.getItem "path"
    let ps ← pj.asStr
    if seen.contains (tagNameOf ps) then specTags seen acc rest
    else do
      let d ← a.getItem "description"
      specTags (seen ++ [tagNameOf ps])
        (acc ++ [Json.obj [("name", Json.str (tagNameOf ps)), ("description", d)]]) rest

/-- The tag-name derivation exactly as claim C4 words it: the final path
segment with a trailing "-controller" suffix stripped (only a trailing
occurrence). -/
def claimTagName (p : String) : String :=
  let seg := (pySplit p "/").getLastD ""
  if pyEndsWith seg "-controller" then
    String.mk (seg.data.take (seg.data.length - "-controller".data.length))
  else seg

/-- An API reference whose path has "-controller" in the middle of its final
segment. -/
def refMid : Json := .obj [("path", .str "/a-controller-b"), ("description", .str "D")]

/-- A resource listing with the single reference `refMid`. -/
def listingMid : Json := .obj [("info", .obj []), ("apis", .arr [refMid])]

/-- Environment for the C4 counterexample and witness. -/
def envC4 : FetchEnv := ⟨some listingMid, fun _ => none⟩

/-- The output document for `envC4` and origin URL
"http://host/v1/api-docs". -/
def outC4 : Json := .obj [("swagger", .str "2.0"),
  ("info", .obj [("version", .str "1.0")]), ("host", .str "host"),
  ("basePath", .str "/v1/api-docs"), ("schemes", .arr [.str "http"]),
  ("paths", .obj []), ("definitions", .obj []),
  ("tags", .arr [.obj [("name", .str "a-b"), ("description", .str "D")]])]

/-- The output document for `envC2` and origin URL
"http://host/v1/api-docs": the empty parameters list was dropped by the
cleanup sweep, the nonempty responses dict was kept. -/
def outC2 : Json := .obj [("swagger", .str "2.0"),
  ("info", .obj [("version", .str "1.0")]), ("host", .str "host"),
  ("basePath", .str "/v1/api-docs"), ("schemes", .arr [.str "http"]),
  ("paths", .obj [("/pet", .obj [("get", .obj [("tags", .arr [.str "pet"]),
    ("summary", .str "s"), ("description", .str "n"),
    ("responses", .obj [("200", .obj [("description", .str "ok"),
      ("schema", Json.null)])]),
    ("consumes", .arr []), ("produces", .arr [])])])]),
  ("definitions", .obj []),
  ("tags", .arr [.obj [("name", .str "pet"), ("description", .str "Pets")]])]

/-! Small decomposition lemmas for `Except` bind chains and for the
association-list dictionary operations. -/

theorem ok_bind {α β : Type} (a : α) (f : α → Except String β) :
    (Except.ok a : Except String α) >>= f = f a := rfl

theorem error_bind {α β : Type} (e : String) (f : α → Except String β) :
    (Except.error e : Except String α) >>= f = Except.error e := rfl

theorem pure_eq_ok {α : Type} (a : α) : (pure a : Except String α) = Except.ok a := rfl

theorem bind_ok_iff {α β : Type} {x : Except String α} {f : α → Except String β} {b : β} :
    x >>= f = Except.ok b ↔ ∃ a, x = Except.ok a ∧ f a = Except.ok b := by
  cases x <;> simp [ok_bind, error_bind]

theorem pure_ok_iff {α : Type} {a b : α} :
    (pure a : Except String α) = Except.ok b ↔ a = b := by
  simp [pure_eq_ok]

theorem lookup_setKey_self (l : List (String × Json)) (k : String) (v : Json) :
    lookupKey (setKey l k v) k = some v := by
  induction l with
  | nil => simp [setKey, lookupKey]
  | cons kv rest ih =>
    by_cases h : kv.1 = k
    · simp [setKey, h, lookupKey]
    · simp [setKey, h, lookupKey, ih]

theorem setKey_setKey (l : List (String × Json)) (k : String) (v w : Json) :
    setKey (setKey l k v) k w = setKey l k w := by
  induction l with
  | nil => simp [setKey]
  | cons kv rest ih =>
    by_cases h : kv.1 = k
    · simp [setKey, h]
    · simp [setKey, h, ih]

theorem lookup_delKey_self (l : List (String × Json)) (k : String) :
    lookupKey (delKey l k) k = none := by
  induction l with
  | nil => simp [delKey, lookupKey]
  | cons kv rest ih =>
    by_cases h : kv.1 = k
    · simpa [delKey, h] using ih
    · simpa [delKey, lookupKey, h] using ih

theorem lookup_delKey_ne (l : List (String × Json)) (k k' : String) (h : k' ≠ k) :
    lookupKey (delKey l k) k' = lookupKey l k' := by
  induction l with
  | nil => rfl
  | cons kv rest ih =>
    by_cases hk : kv.1 = k
    · have h2 : ¬kv.1 = k' := by rw [hk]; exact fun hh => h hh.symm
      have hdel : delKey (kv :: rest) k = delKey rest k := by
        simp [delKey, List.filter_cons, hk]
      rw [hdel, ih]
      simp [lookupKey, h2]
    · have hdel : delKey (kv :: rest) k = kv :: delKey rest k := by
        simp [delKey, List.filter_cons, hk]
      rw [hdel]
      by_cases hk' : kv.1 = k'
      · simp [lookupKey, hk']
      · simp [lookupKey, hk', ih]

/-- C5: last-write-wins on a duplicate (path, method) pair.  Inserting at the
same (path, method) twice is the same as inserting only the later operation
object: the earlier entry is completely overwritten, no fields merged, and
the stored entry is the later object. -/
theorem C5_last_write_wins (paths : List (String × Json)) (p m : String) (v1 v2 : Json)
    (h : lookupKey paths p = none ∨ ∃ ms, lookupKey paths p = some (Json.obj ms)) :
    (addOperation paths p m v1 >>= fun ps => addOperation ps p m v2)
        = addOperation paths p m v2 ∧
    ∃ ps2 ms2, addOperation paths p m v2 = .ok ps2 ∧
      lookupKey ps2 p = some (Json.obj ms2) ∧ lookupKey ms2 m = some v2 := by
  rcases h with h | ⟨ms, h⟩
  · refine ⟨?_, setKey paths p (Json.obj [(m, v2)]), [(m, v2)], ?_, ?_, ?_⟩
    · simp [addOperation, h, ok_bind, lookup_setKey_self, setKey_setKey, setKey]
    · simp [addOperation, h]
    · exact lookup_setKey_self _ _ _
    · simp [lookupKey]
  · refine ⟨?_, setKey paths p (Json.obj (setKey ms m v2)), setKey ms m v2, ?_, ?_, ?_⟩
    · simp [addOperation, h, ok_bind, lookup_setKey_self, setKey_setKey]
    · simp [addOperation, h]
    · exact lookup_setKey_self _ _ _
    · exact lookup_setKey_self _ _ _

/-- C5 witness: the generic last-write-wins theorem applied at a concrete
paths dict with a duplicate ("/pet", "get") insertion. -/
theorem C5_witness :
    (addOperation [] "/pet" "get" (.str "first") >>= fun ps =>
        addOperation ps "/pet" "get" (.str "second"))
      = addOperation [] "/pet" "get" (.str "second") ∧
    ∃ ps2 ms2, addOperation [] "/pet" "get" (.str "second") = .ok ps2 ∧
      lookupKey ps2 "/pet" = some (Json.obj ms2) ∧
      lookupKey ms2 "get" = some (.str "second") :=
  C5_last_write_wins [] "/pet" "get" (.str "first") (.str "second") (Or.inl rfl)

/-- C10: the HTTP-method key under which an operation object is stored is the
lower-cased source method string, whatever the source casing. -/
theorem C10_method_lowercased (tag : String) (operation : Json) (s method : String)
    (objv : Json)
    (hm : operation.getItem "method" = .ok (.str s))
    (h : convertOperation tag operation = .ok (method, objv)) :
    method = pyLower s := by
  simp only [convertOperation, hm, ok_bind, Json.asStr] at h
  simp only [bind_ok_iff, pure_ok_iff] at h
  obtain ⟨a1, h1, a2, h2, a3, h3, a4, h4, a5, h5, a6, h6, a7, h7, a8, h8, a9, h9, a10,
    h10, hfin⟩ := h
  cases hfin
  rfl

/-- C10 witness: the lower-casing theorem applied to `opGET`, whose source
method string is "GET" and whose paths key comes out as "get". -/
theorem C10_witness : ("get" : String) = pyLower "GET" :=
  C10_method_lowercased "pet" opGET "GET" "get" opGETout rfl rfl

/-- C2 (amended): every translated response object carries a `schema` key —
the claim's `$ref` object when `responseModel` is truthy, and JSON null (not
an absent key) when `responseModel` is falsy. -/
theorem C2_schema_key (resp model : Json) (code : String) (robj : Json)
    (hr : resp.getItem "responseModel" = .ok model)
    (h : convertResponseMessage resp = .ok (code, robj)) :
    robj.hasKey "schema" = true ∧
    (model.truthy = true →
      robj.getItem "schema"
        = .ok (Json.obj [("$ref", Json.str ("#/definitions/" ++ pyStr model))])) ∧
    (model.truthy = false → robj.getItem "schema" = .ok Json.null) := by
  simp only [convertResponseMessage, bind_ok_iff, pure_ok_iff] at h
  obtain ⟨c, hc, m, hm, mo, hmo, hfin⟩ := h
  rw [hr] at hmo
  injection hmo with hmo
  subst hmo
  cases hfin
  refine ⟨by simp [Json.hasKey, lookupKey], ?_, ?_⟩
  · intro ht; simp [Json.getItem, lookupKey, ht]
  · intro ht; simp [Json.getItem, lookupKey, ht]

/-- C2 witness: the schema-key theorem applied to a concrete response with
the truthy responseModel "Pet". -/
theorem C2_witness :
    Json.hasKey (Json.obj [("description", .str "ok"),
        ("schema", .obj [("$ref", .str "#/definitions/Pet")])]) "schema" = true ∧
    ((Json.str "Pet").truthy = true →
      (Json.obj [("description", .str "ok"),
          ("schema", .obj [("$ref", .str "#/definitions/Pet")])]).getItem "schema"
        = .ok (Json.obj [("$ref", Json.str ("#/definitions/" ++ pyStr (.str "Pet")))])) ∧
    ((Json.str "Pet").truthy = false →
      (Json.obj [("description", .str "ok"),
          ("schema", .obj [("$ref", .str "#/definitions/Pet")])]).getItem "schema"
        = .ok Json.null) :=
  C2_schema_key
    (.obj [("code", .num 200), ("message", .str "ok"), ("responseModel", .str "Pet")])
    (.str "Pet") "200"
    (.obj [("description", .str "ok"), ("schema", .obj [("$ref", .str "#/definitions/Pet")])])
    rfl rfl

/-- C2 counterexample: in the final output for `envC2`, the 200 response of
GET /pet — whose source `responseModel` is the falsy empty string — carries a
`schema` key with value null; the key is not absent as the claim states. -/
theorem C2_counterexample :
    (((((convert_swagger_12_to_20 envC2 "http://host/v1/api-docs").bind
        (fun o => o.getItem "paths")).bind (fun o => o.getItem "/pet")).bind
        (fun o => o.getItem "get")).bind (fun o => o.getItem "responses")).bind
        (fun o => o.getItem "200")
      = .ok (Json.obj [("description", .str "ok"), ("schema", Json.null)]) ∧
    Json.hasKey (Json.obj [("description", .str "ok"), ("schema", Json.null)])
        "schema" = true :=
  ⟨rfl, rfl⟩

/-- C6 (amended): when the `message` key is present — whether truthy, the
empty string, or explicit null — translation succeeds; the description is the
message verbatim when truthy and "No description" when falsy.  (An absent
`message` key instead aborts the whole conversion; see the counterexample.) -/
theorem C6_description_default (resp c msg model : Json)
    (hc : resp.getItem "code" = .ok c)
    (hm : resp.getItem "message" = .ok msg)
    (hr : resp.getItem "responseModel" = .ok model) :
    ∃ robj, convertResponseMessage resp = .ok (pyStr c, robj) ∧
      robj.getItem "description"
        = .ok (if msg.truthy = true then msg else Json.str "No description") := by
  refine ⟨Json.obj [("description", if msg.truthy then msg else Json.str "No description"),
      ("schema", if model.truthy then
          Json.obj [("$ref", Json.str ("#/definitions/" ++ pyStr model))]
        else Json.null)], ?_, ?_⟩
  · simp [convertResponseMessage, hc, hm, hr, ok_bind]
  · simp [Json.getItem, lookupKey]

/-- C6 witness: the description-default theorem applied to a response whose
message is an explicit null. -/
theorem C6_witness :
    ∃ robj, convertResponseMessage
        (.obj [("code", .num 404), ("message", Json.null), ("responseModel", .str "")])
        = .ok (pyStr (.num 404), robj) ∧
      robj.getItem "description"
        = .ok (if Json.null.truthy = true then Json.null else Json.str "No description") :=
  C6_description_default
    (.obj [("code", .num 404), ("message", Json.null), ("responseModel", .str "")])
    (.num 404) Json.null (.str "") rfl rfl rfl

/-- C6 counterexample: with the `message` key absent entirely the conversion
does not succeed — it aborts with an uncaught KeyError (the source reads
`resp["message"]`, not `resp.get("message")`), contrary to the claim that the
conversion succeeds in the absent-key case. -/
theorem C6_counterexample :
    convert_swagger_12_to_20 envC6 "http://host/v1/api-docs"
      = .error "KeyError: message" := rfl

/-- Helper: a successful property translation determines the required flag
as the truthiness of `prop_def.get("required", False)`. -/
theorem convertProperty_required (pd spec : Json) (isReq : Bool)
    (h : convertProperty pd = .ok (spec, isReq)) :
    ∃ r, pd.getD "required" (Json.bool false) = .ok r ∧ isReq = r.truthy := by
  simp only [convertProperty, bind_ok_iff, pure_ok_iff] at h
  obtain ⟨ty, hty, tys, htys, d, hd, f, hf, r, hr, hfin⟩ := h
  refine ⟨r, hr, ?_⟩
  cases hfin
  rfl

/-- Helper: the properties fold of `convertModel` accumulates exactly the
names `requiredNames` describes, in order. -/
theorem modelFold_required (props : List (String × Json)) :
    ∀ accP accR P R,
      List.foldlM modelPropStep (accP, accR) props = Except.ok (P, R) →
      R = accR ++ requiredNames props := by
  induction props with
  | nil =>
    intro accP accR P R h
    simp only [List.foldlM_nil, pure_ok_iff] at h
    cases h
    simp [requiredNames]
  | cons pv rest ih =>
    intro accP accR P R h
    rw [List.foldlM_cons, bind_ok_iff] at h
    obtain ⟨⟨P1, R1⟩, h1, h2⟩ := h
    simp only [modelPropStep, bind_ok_iff, pure_ok_iff] at h1
    obtain ⟨⟨spec, isReq⟩, hcp, hfin⟩ := h1
    obtain ⟨r, hr, hreq⟩ := convertProperty_required _ _ _ hcp
    have hrest := ih _ _ _ _ h2
    cases hfin
    subst hreq
    cases hrt : r.truthy <;>
      simp [requiredNames, hr, hrt, hrest, List.append_assoc]

/-- C3 (amended): a converted model definition always carries a `required`
key: JSON null (not an absent key, not an empty list) when no property is
required, and the list of required property names otherwise. -/
theorem C3_required_key (model_def dobj : Json) (props : List (String × Json))
    (h1 : model_def.getItem "properties" = .ok (Json.obj props))
    (h : convertModel model_def = .ok dobj) :
    dobj.hasKey "required" = true ∧
    dobj.getItem "required" = .ok (if requiredNames props = [] then Json.null
      else Json.arr ((requiredNames props).map Json.str)) := by
  simp only [convertModel, h1, ok_bind, Json.asObj] at h
  rw [bind_ok_iff] at h
  obtain ⟨⟨P, R⟩, hfold, h2⟩ := h
  have hR := modelFold_required props [] [] P R hfold
  simp only [List.nil_append] at hR
  rw [bind_ok_iff] at h2
  obtain ⟨md, hmd, h3⟩ := h2
  rw [pure_ok_iff] at h3
  subst h3
  subst hR
  cases hq : requiredNames props <;>
    simp [Json.hasKey, Json.getItem, lookupKey, hq]

/-- C3 witness: the required-key theorem applied to the concrete model
`modelM`, none of whose properties is required. -/
theorem C3_witness :
    defMout.hasKey "required" = true ∧
    defMout.getItem "required"
      = .ok (if requiredNames [("a", Json.obj [("type", Json.str "string")])] = []
          then Json.null
          else Json.arr ((requiredNames
            [("a", Json.obj [("type", Json.str "string")])]).map Json.str)) :=
  C3_required_key modelM defMout [("a", Json.obj [("type", Json.str "string")])] rfl rfl

/-- C3 counterexample: in the final output for `envC3`, the definition of
model "M" — which has no required property — carries a `required` key with
value null; the key is not absent as the claim states. -/
theorem C3_counterexample :
    ((convert_swagger_12_to_20 envC3 "http://host/v1/api-docs").bind
        (fun o => o.getItem "definitions")).bind (fun o => o.getItem "M")
      = .ok defMout ∧
    defMout.hasKey "required" = true ∧
    defMout.getItem "required" = .ok Json.null :=
  ⟨rfl, rfl, rfl⟩

/-- Decomposition of a successful conversion run into its pipeline steps and
the shape of the final document. -/
theorem convert_ok_decomp (env : FetchEnv) (url : String) (l out : Json)
    (h1 : pyEndsWith url "api-docs" = true) (h2 : env.listing = some l)
    (h : convert_swagger_12_to_20 env url = .ok out) :
    ∃ info0 apiVersion infoFs apisJ apis st definitions cleanPaths,
      l.getItem "info" = .ok info0 ∧
      l.getD "apiVersion" (Json.str "1.0") = .ok apiVersion ∧
      info0.asObj = .ok infoFs ∧
      l.getItem "apis" = .ok apisJ ∧
      apisJ.asArr = .ok apis ∧
      List.foldlM (processApiEntry env.resolver
          ((urlparse url).scheme ++ "://" ++ (urlparse url).netloc
            ++ rstripSlashes (urlparse url).path ++ "/"))
          ⟨[], [], []⟩ apis = .ok st ∧
      convertModels l = .ok definitions ∧
      cleanupPaths st.paths = .ok cleanPaths ∧
      out = Json.obj [("swagger", Json.str "2.0"),
        ("info", Json.obj (setKey infoFs "version" apiVersion)),
        ("host", Json.str (urlparse url).netloc),
        ("basePath", Json.str (rstripSlashes (urlparse url).path)),
        ("schemes", Json.arr [Json.str (urlparse url).scheme]),
        ("paths", Json.obj cleanPaths),
        ("definitions", Json.obj definitions),
        ("tags", Json.arr st.tags)] := by
  simp only [convert_swagger_12_to_20, h1, h2, Bool.not_true, Bool.false_eq_true,
    if_false, pure_bind, bind_ok_iff, pure_ok_iff] at h
  obtain ⟨i0, hi0, av, hav, ifs, hifs, aj, haj, as, has, st, hst, dfs, hdfs, cps,
    hcps, hout⟩ := h
  exact ⟨i0, av, ifs, aj, as, st, dfs, cps, hi0, hav, hifs, haj, has, hst, hdfs,
    hcps, hout.symm⟩

/-- C1 (amended): host, basePath and schemes are derived from the origin
URL — host is its netloc, basePath is its path with trailing slashes removed
and the "api-docs" segment *included*, and schemes is exactly the origin
scheme.  For origin URL "http://host/v1/api-docs" this gives host "host",
basePath "/v1/api-docs" and schemes ["http"]. -/
theorem C1_host_basePath_schemes (env : FetchEnv) (url : String) (l out : Json)
    (h1 : pyEndsWith url "api-docs" = true) (h2 : env.listing = some l)
    (h : convert_swagger_12_to_20 env url = .ok out) :
    out.getItem "host" = .ok (.str (urlparse url).netloc) ∧
    out.getItem "basePath" = .ok (.str (rstripSlashes (urlparse url).path)) ∧
    out.getItem "schemes" = .ok (.arr [.str (urlparse url).scheme]) := by
  obtain ⟨i0, av, ifs, aj, as, st, dfs, cps, _, _, _, _, _, _, _, _, hout⟩ :=
    convert_ok_decomp env url l out h1 h2 h
  subst hout
  refine ⟨?_, ?_, ?_⟩ <;> simp [Json.getItem, lookupKey]

/-- C1 witness: the host/basePath/schemes theorem applied at the concrete
origin URL "http://host/v1/api-docs" with listing `listingEmpty`. -/
theorem C1_witness :
    outEmpty.getItem "host"
        = .ok (.str (urlparse "http://host/v1/api-docs").netloc) ∧
    outEmpty.getItem "basePath"
        = .ok (.str (rstripSlashes (urlparse "http://host/v1/api-docs").path)) ∧
    outEmpty.getItem "schemes"
        = .ok (.arr [.str (urlparse "http://host/v1/api-docs").scheme]) :=
  C1_host_basePath_schemes envEmpty "http://host/v1/api-docs" listingEmpty outEmpty
    rfl rfl rfl

/-- C1 counterexample: for origin URL "http://host/v1/api-docs" the output's
basePath is "/v1/api-docs" — the "api-docs" segment is not excluded — which
differs from the claimed "/v1". -/
theorem C1_counterexample :
    (convert_swagger_12_to_20 envEmpty "http://host/v1/api-docs").bind
        (fun o => o.getItem "basePath") = .ok (.str "/v1/api-docs") ∧
    ("/v1/api-docs" : String) ≠ "/v1" :=
  ⟨rfl, by decide⟩

/-- C9: a resource listing lacking the top-level info field or the top-level
apis field makes the whole conversion fail with an uncaught KeyError — the
result is an error, hence no output document (partial or otherwise). -/
theorem C9_missing_fields_fatal (env : FetchEnv) (url : String)
    (fs : List (String × Json))
    (h1 : pyEndsWith url "api-docs" = true) (h2 : env.listing = some (Json.obj fs))
    (h3 : lookupKey fs "info" = none ∨ lookupKey fs "apis" = none) :
    ∃ e, convert_swagger_12_to_20 env url = .error e := by
  cases hr : convert_swagger_12_to_20 env url with
  | error e => exact ⟨e, rfl⟩
  | ok out =>
    exfalso
    obtain ⟨i0, av, ifs, aj, as, st, dfs, cps, hi, _, _, ha, _⟩ :=
      convert_ok_decomp env url _ out h1 h2 hr
    rcases h3 with h3 | h3
    · simp [Json.getItem, h3] at hi
    · simp [Json.getItem, h3] at ha

/-- C9 witness: the fatal-error theorem applied to a listing that has an
info field but no apis field. -/
theorem C9_witness :
    ∃ e, convert_swagger_12_to_20 envC9 "http://host/v1/api-docs" = .error e :=
  C9_missing_fields_fatal envC9 "http://host/v1/api-docs" [("info", .obj [])]
    rfl rfl (Or.inr rfl)

/-- C8: a failed declaration fetch is non-fatal: processing the reference
still returns ok (so the loop goes on to later references), the reference
still yields its tag entry (appended when its tag name is new), and it
contributes nothing to paths. -/
theorem C8_fetch_failure_nonfatal (resolver : String → Option Json) (base_url : String)
    (st : ConvState) (a d : Json) (ps : String)
    (hp : a.getItem "path" = .ok (.str ps))
    (hd : a.getItem "description" = .ok d)
    (hf : resolver (base_url ++ ps) = none) :
    processApiEntry resolver base_url st a = .ok
      { tags := if st.seen.contains (tagNameOf ps) then st.tags
          else st.tags ++ [Json.obj [("name", .str (tagNameOf ps)), ("description", d)]],
        seen := if st.seen.contains (tagNameOf ps) then st.seen
          else st.seen ++ [tagNameOf ps],
        paths := st.paths } := by
  simp only [processApiEntry, tagStep, hp, hd, ok_bind, Json.asStr]
  cases hc : st.seen.contains (tagNameOf ps) <;>
    simp [hc, ok_bind, fetch_api_details, hf, Json.getD, lookupKey, Json.asArr,
      List.foldlM_nil, pure_bind, pure_eq_ok]

/-- C8 witness: the non-fatal-fetch theorem applied to `refPet` with an
always-failing resolver and the empty starting state. -/
theorem C8_witness :
    processApiEntry (fun _ => none) "http://host/v1/api-docs/"
        ⟨[], [], []⟩ refPet = .ok
      { tags := if ConvState.seen ⟨[], [], []⟩ |>.contains (tagNameOf "/pet-controller")
          then ConvState.tags ⟨[], [], []⟩
          else ConvState.tags ⟨[], [], []⟩ ++
            [Json.obj [("name", .str (tagNameOf "/pet-controller")),
              ("description", .str "Pets")]],
        seen := if ConvState.seen ⟨[], [], []⟩ |>.contains (tagNameOf "/pet-controller")
          then ConvState.seen ⟨[], [], []⟩
          else ConvState.seen ⟨[], [], []⟩ ++ [tagNameOf "/pet-controller"],
        paths := ConvState.paths ⟨[], [], []⟩ } :=
  C8_fetch_failure_nonfatal (fun _ => none) "http://host/v1/api-docs/"
    ⟨[], [], []⟩ refPet (.str "Pets") "/pet-controller" rfl rfl rfl

/-- Helper: an operation object that passed `cleanupOp` carries no falsy
value under its responses or parameters key. -/
theorem cleanupOp_good (op op2 : Json) (h : cleanupOp op = .ok op2) :
    ∃ fs, op2 = Json.obj fs ∧ cleanOpFields fs := by
  simp only [cleanupOp, bind_ok_iff, pure_ok_iff] at h
  obtain ⟨r, hr, fs1, hfs1, p, hp, hfin⟩ := h
  cases hrt : r.truthy <;> simp only [hrt, if_true, if_false, Bool.false_eq_true,
    Bool.true_eq_false, ite_true, ite_false] at hp hfin
  · -- responses falsy: deleted
    have hlp : lookupKey (delKey fs1 "responses") "parameters" = some p := by
      cases hl : lookupKey (delKey fs1 "responses") "parameters" <;>
        simp [Json.getItem, hl] at hp
      rw [hp]
    cases hpt : p.truthy <;> simp only [hpt, Bool.false_eq_true, Bool.true_eq_false,
      ite_true, ite_false] at hfin
    · refine ⟨_, hfin.symm, ?_, ?_⟩
      · left
        rw [lookup_delKey_ne _ _ _ (by decide), lookup_delKey_self]
      · left
        exact lookup_delKey_self _ _
    · refine ⟨_, hfin.symm, ?_, ?_⟩
      · left
        exact lookup_delKey_self _ _
      · right
        exact ⟨p, hlp, hpt⟩
  · -- responses truthy: kept
    have hor : Json.obj fs1 = op := by
      cases op <;> simp [Json.asObj] at hfs1
      rw [hfs1]
    have hlr : lookupKey fs1 "responses" = some r := by
      rw [← hor] at hr
      cases hl : lookupKey fs1 "responses" <;> simp [Json.getItem, hl] at hr
      rw [hr]
    have hlp : lookupKey fs1 "parameters" = some p := by
      cases hl : lookupKey fs1 "parameters" <;> simp [Json.getItem, hl] at hp
      rw [hp]
    cases hpt : p.truthy <;> simp only [hpt, Bool.false_eq_true, Bool.true_eq_false,
      ite_true, ite_false] at hfin
    · refine ⟨_, hfin.symm, ?_, ?_⟩
      · right
        rw [lookup_delKey_ne _ _ _ (by decide)]
        exact ⟨r, hlr, hrt⟩
      · left
        exact lookup_delKey_self _ _
    · exact ⟨_, hfin.symm, Or.inr ⟨r, hlr, hrt⟩, Or.inr ⟨p, hlp, hpt⟩⟩

/-- Helper: every operation object in the output of `cleanupMethods` passed
`cleanupOp`. -/
theorem cleanupMethods_good (ms ms2 : List (String × Json))
    (h : cleanupMethods ms = .ok ms2) :
    ∀ mv ∈ ms2, ∃ fs, mv.2 = Json.obj fs ∧ cleanOpFields fs := by
  induction ms generalizing ms2 with
  | nil =>
    simp only [cleanupMethods] at h
    injection h with h
    subst h
    intro mv hmv
    cases hmv
  | cons x rest ih =>
    simp only [cleanupMethods, bind_ok_iff, pure_ok_iff] at h
    obtain ⟨op2, hop, r2, hr2, hfin⟩ := h
    subst hfin
    intro mv hmv
    rcases List.mem_cons.mp hmv with hmv | hmv
    · subst hmv
      exact cleanupOp_good _ _ hop
    · exact ih r2 hr2 mv hmv

/-- Helper: every path value in the output of `cleanupPaths` is a dict of
operation objects that passed `cleanupOp`. -/
theorem cleanupPaths_good (paths cps : List (String × Json))
    (h : cleanupPaths paths = .ok cps) :
    ∀ pv ∈ cps, ∃ ms, pv.2 = Json.obj ms ∧
      ∀ mv ∈ ms, ∃ fs, mv.2 = Json.obj fs ∧ cleanOpFields fs := by
  induction paths generalizing cps with
  | nil =>
    simp only [cleanupPaths] at h
    injection h with h
    subst h
    intro pv hpv
    cases hpv
  | cons x rest ih =>
    simp only [cleanupPaths, bind_ok_iff, pure_ok_iff] at h
    obtain ⟨ms, hms, ms2, hms2, r2, hr2, hfin⟩ := h
    subst hfin
    intro pv hpv
    rcases List.mem_cons.mp hpv with hpv | hpv
    · subst hpv
      exact ⟨ms2, rfl, cleanupMethods_good ms ms2 hms2⟩
    · exact ih r2 hr2 pv hpv

/-- C7: no operation object in the final output carries an empty collection
under its parameters or responses key — after the cleanup sweep each of the
two keys is either absent (dropped when its collection was empty) or holds a
truthy, nonempty value. -/
theorem C7_no_empty_collections (env : FetchEnv) (url : String) (l out : Json)
    (h1 : pyEndsWith url "api-docs" = true) (h2 : env.listing = some l)
    (h : convert_swagger_12_to_20 env url = .ok out) :
    ∃ cps, out.getItem "paths" = .ok (Json.obj cps) ∧
      ∀ pv ∈ cps, ∃ ms, pv.2 = Json.obj ms ∧
        ∀ mv ∈ ms, ∃ fs, mv.2 = Json.obj fs ∧ cleanOpFields fs := by
  obtain ⟨i0, av, ifs, aj, as, st, dfs, cps, _, _, _, _, _, _, _, hcl, hout⟩ :=
    convert_ok_decomp env url l out h1 h2 h
  subst hout
  refine ⟨cps, by simp [Json.getItem, lookupKey], ?_⟩
  exact cleanupPaths_good st.paths cps hcl

/-- C7 witness: the no-empty-collections theorem applied at `envC2`, whose
single GET operation has an empty (dropped) parameters list and a nonempty
responses dict. -/
theorem C7_witness :
    ∃ cps, outC2.getItem "paths" = .ok (Json.obj cps) ∧
      ∀ pv ∈ cps, ∃ ms, pv.2 = Json.obj ms ∧
        ∀ mv ∈ ms, ∃ fs, mv.2 = Json.obj fs ∧ cleanOpFields fs :=
  C7_no_empty_collections envC2 "http://host/v1/api-docs" listingPet outC2
    rfl rfl rfl

/-- Helper: decomposition of a successful tag step (lines 61-67). -/
theorem tagStep_ok (st st1 : ConvState) (a : Json) (tn ps : String)
    (h : tagStep st a = .ok (st1, tn, ps)) :
    a.getItem "path" = .ok (.str ps) ∧ tn = tagNameOf ps ∧
    ((st.seen.contains (tagNameOf ps) = true ∧ st1 = st) ∨
     (st.seen.contains (tagNameOf ps) = false ∧
      ∃ d, a.getItem "description" = .ok d ∧
        st1 = { st with
          tags := st.tags ++
            [Json.obj [("name", .str (tagNameOf ps)), ("description", d)]],
          seen := st.seen ++ [tagNameOf ps] })) := by
  simp only [tagStep, bind_ok_iff, pure_ok_iff] at h
  obtain ⟨pj, hpj, s, hs, h2⟩ := h
  have hpjs : pj = Json.str s := by
    cases pj <;> simp [Json.asStr] at hs
    rw [hs]
  subst hpjs
  cases hc : st.seen.contains (tagNameOf s) <;>
    simp only [hc, Bool.false_eq_true, Bool.true_eq_false, ite_true, ite_false,
      if_true, if_false, bind_ok_iff, pure_ok_iff] at h2
  · obtain ⟨d, hd, hfin⟩ := h2
    injection hfin with e1 e23
    injection e23 with e2 e3
    subst e1
    subst e2
    subst e3
    exact ⟨hpj, rfl, Or.inr ⟨hc, d, hd, rfl⟩⟩
  · injection h2 with e1 e23
    injection e23 with e2 e3
    subst e1
    subst e2
    subst e3
    exact ⟨hpj, rfl, Or.inl ⟨hc, rfl⟩⟩

/-- Helper: the main loop's effect on the accumulated tags and seen set is
exactly the specification-side derivation `specTags`, whatever the endpoint
processing does to paths. -/
theorem fold_tags_spec (resolver : String → Option Json) (base_url : String)
    (as : List Json) :
    ∀ (st st' : ConvState),
      List.foldlM (processApiEntry resolver base_url) st as = .ok st' →
      specTags st.seen st.tags as = .ok st'.tags := by
  induction as with
  | nil =>
    intro st st' h
    simp only [List.foldlM_nil, pure_ok_iff] at h
    subst h
    rfl
  | cons a rest ih =>
    intro st st' h
    rw [List.foldlM_cons, bind_ok_iff] at h
    obtain ⟨st2, hstep, hrest⟩ := h
    simp only [processApiEntry, bind_ok_iff, pure_ok_iff] at hstep
    obtain ⟨⟨st1, tn, ps⟩, htag, hstep2⟩ := hstep
    obtain ⟨ej, hej, eps, heps, p2, hp2, hfin⟩ := hstep2
    obtain ⟨hpath, htn, hbr⟩ := tagStep_ok st st1 a tn ps htag
    have hs2 : st2.tags = st1.tags ∧ st2.seen = st1.seen := by
      rw [← hfin]
      exact ⟨rfl, rfl⟩
    rcases hbr with ⟨hc, hst1⟩ | ⟨hc, d, hd, hst1⟩
    · have := ih st2 st' hrest
      rw [hs2.1, hs2.2, hst1] at this
      simp only [specTags, hpath, ok_bind, Json.asStr, hc, ite_true, if_true]
      exact this
    · have := ih st2 st' hrest
      rw [hs2.1, hs2.2, hst1] at this
      simp only [specTags, hpath, ok_bind, Json.asStr, hc, Bool.false_eq_true,
        ite_false, if_false, hd]
      exact this

/-- C4 (amended): the output tags list is exactly the first-seen
deduplication described by `specTags`: one entry per distinct derived tag
name — the final path segment with every occurrence of "-controller" removed,
not only a trailing suffix — in first-seen order, each carrying the
description of the first API reference that produced that name. -/
theorem C4_tags_first_seen (env : FetchEnv) (url : String) (l out : Json)
    (as : List Json)
    (h1 : pyEndsWith url "api-docs" = true) (h2 : env.listing = some l)
    (ha : l.getItem "apis" = .ok (Json.arr as))
    (h : convert_swagger_12_to_20 env url = .ok out) :
    ∃ ts, out.getItem "tags" = .ok (Json.arr ts) ∧ specTags [] [] as = .ok ts := by
  obtain ⟨i0, av, ifs, aj, as2, st, dfs, cps, _, _, _, haj, has, hst, _, _, hout⟩ :=
    convert_ok_decomp env url l out h1 h2 h
  rw [ha] at haj
  injection haj with haj
  subst haj
  simp only [Json.asArr] at has
  injection has with has
  subst has
  refine ⟨st.tags, ?_, ?_⟩
  · subst hout
    simp [Json.getItem, lookupKey]
  · exact fold_tags_spec env.resolver _ as ⟨[], [], []⟩ st hst

/-- C4 witness: the first-seen-tags theorem applied at `envC4`. -/
theorem C4_witness :
    ∃ ts, outC4.getItem "tags" = .ok (Json.arr ts) ∧
      specTags [] [] [refMid] = .ok ts :=
  C4_tags_first_seen envC4 "http://host/v1/api-docs" listingMid outC4 [refMid]
    rfl rfl rfl rfl

/-- C4 counterexample: for the reference path "/a-controller-b" the output
tag name is "a-b" — every occurrence of "-controller" is removed — while the
claimed derivation (strip only a trailing "-controller" suffix) yields
"a-controller-b", a different name. -/
theorem C4_counterexample :
    (convert_swagger_12_to_20 envC4 "http://host/v1/api-docs").bind
        (fun o => o.getItem "tags")
      = .ok (.arr [.obj [("name", .str "a-b"), ("description", .str "D")]]) ∧
    claimTagName "/a-controller-b" = "a-controller-b" ∧
    ("a-b" : String) ≠ "a-controller-b" :=
  ⟨rfl, rfl, by decide⟩

end SwaggerConvert
